import Mathlib

/-!
Verification of the order-fulfillment and cache-invalidation core of an
e-commerce backend (Express + Prisma + Redis).

The embedding below mirrors the JavaScript controllers over a relational
store:

* money is held in integer cents, matching the Decimal(10,2) columns of the
  Prisma schema;
* the JavaScript number arithmetic used by the controllers
  (parseFloat, `*`, `+=`) is modelled exactly by `F64`, nonnegative IEEE-754
  binary64 values represented as dyadic rationals with round-to-nearest,
  ties-to-even;
* each controller action is a function from a `Store` (the relational state)
  to a response, a successor `Store`, and the list of cache operations the
  action performs on the Redis layer.
-/

/-- Number of binary digits of a natural number, with explicit fuel so that
the kernel can evaluate it on concrete inputs. -/
def bitlenGo : ℕ → ℕ → ℕ
  | 0, _ => 0
  | fuel + 1, n => if n = 0 then 0 else bitlenGo fuel (n / 2) + 1

def bitlen (n : ℕ) : ℕ := bitlenGo 1200 n

/-- Round a / b (with b > 0) to the nearest natural number, ties to even. -/
def rneNat (a b : ℕ) : ℕ :=
  let q := a / b
  let r := a % b
  if 2 * r < b then q
  else if b < 2 * r then q + 1
  else if q % 2 = 0 then q else q + 1

/-- A nonnegative IEEE-754 binary64 value, represented exactly as m * 2 ^ e.
Values produced by the operations below are normalized: m odd, or m = 0 and
e = 0. Overflow and subnormal behavior are not modelled; every quantity in
this development stays far inside the normal range. -/
structure F64 where
  m : ℕ
  e : ℤ
deriving DecidableEq, Repr

def F64.zero : F64 := ⟨0, 0⟩

def F64.normGo : ℕ → ℕ → ℤ → F64
  | 0, m, e => ⟨m, e⟩
  | fuel + 1, m, e => if m ≠ 0 ∧ m % 2 = 0 then F64.normGo fuel (m / 2) (e + 1) else ⟨m, e⟩

def F64.norm (m : ℕ) (e : ℤ) : F64 :=
  if m = 0 then ⟨0, 0⟩ else F64.normGo 1200 m e

/-- Round the exact dyadic value m * 2 ^ e to 53 significant bits
(round to nearest, ties to even): the binary64 rounding step. -/
def F64.round53 (m : ℕ) (e : ℤ) : F64 :=
  let L := bitlen m
  if L ≤ 53 then F64.norm m e
  else F64.norm (rneNat m (2 ^ (L - 53))) (e + (L - 53))

def shiftDiv (a b : ℕ) (s : ℤ) : ℕ :=
  if 0 ≤ s then a * 2 ^ s.toNat / b else a / (b * 2 ^ (-s).toNat)

def rneShift (a b : ℕ) (s : ℤ) : ℕ :=
  if 0 ≤ s then rneNat (a * 2 ^ s.toNat) b else rneNat a (b * 2 ^ (-s).toNat)

/-- The binary64 value nearest to the rational a / b (a ≥ 0, b > 0): the
result of JavaScript parseFloat on the decimal notation of a / b. -/
def F64.ofRat (a b : ℕ) : F64 :=
  if a = 0 then ⟨0, 0⟩
  else
    let d : ℤ := (bitlen a : ℤ) - (bitlen b : ℤ)
    let s0 : ℤ := 53 - d
    let s : ℤ :=
      if bitlen (shiftDiv a b (s0 - 1)) = 53 then s0 - 1
      else if bitlen (shiftDiv a b s0) = 53 then s0
      else s0 + 1
    F64.norm (rneShift a b s) (-s)

/-- parseFloat applied to a 2-decimal money amount given in cents. -/
def parseFloatCents (c : ℕ) : F64 := F64.ofRat c 100

/-- Binary64 multiplication by a nonnegative integer (integers of this size
are exactly representable): round the exact product. -/
def F64.mulNat (x : F64) (n : ℕ) : F64 := F64.round53 (x.m * n) x.e

/-- Binary64 addition of two nonnegative values: round the exact sum. -/
def F64.add (x y : F64) : F64 :=
  if x.e ≤ y.e then F64.round53 (x.m + y.m * 2 ^ (y.e - x.e).toNat) x.e
  else F64.round53 (y.m + x.m * 2 ^ (x.e - y.e).toNat) y.e

/-- Does this binary64 value equal the rational num / den exactly? -/
def F64.ratEq (x : F64) (num den : ℕ) : Prop :=
  if 0 ≤ x.e then x.m * 2 ^ x.e.toNat * den = num
  else x.m * den = num * 2 ^ (-x.e).toNat

instance (x : F64) (num den : ℕ) : Decidable (x.ratEq num den) := by
  unfold F64.ratEq; infer_instance

/-- The 2-decimal value (in cents) that a numeric database column of scale 2
stores for this binary64 value: rounded half away from zero. An exact tie is
impossible for the values arising here, so the tie direction is immaterial. -/
def F64.toCents (x : F64) : ℕ :=
  if 0 ≤ x.e then x.m * 100 * 2 ^ x.e.toNat
  else (2 * (x.m * 100) + 2 ^ (-x.e).toNat) / (2 * 2 ^ (-x.e).toNat)

/-! ## Data model (prisma/schema.prisma) -/

inductive OrderStatus
  | PENDING
  | CONFIRMED
  | SHIPPED
  | DELIVERED
  | CANCELLED
deriving DecidableEq, Repr

structure Product where
  id : ℕ
  name : String
  priceCents : ℕ
  isActive : Bool
deriving DecidableEq, Repr

structure InventoryRow where
  productId : ℕ
  quantity : ℤ
deriving DecidableEq, Repr

structure Cart where
  id : ℕ
  userId : ℕ
deriving DecidableEq, Repr

structure CartItem where
  cartId : ℕ
  productId : ℕ
  quantity : ℕ
deriving DecidableEq, Repr

structure Order where
  id : ℕ
  userId : ℕ
  status : OrderStatus
  totalAmountCents : ℕ
deriving DecidableEq, Repr

structure OrderItem where
  orderId : ℕ
  productId : ℕ
  quantity : ℕ
  priceCents : ℕ
deriving DecidableEq, Repr

structure Store where
  products : List Product
  inventories : List InventoryRow
  carts : List Cart
  cartItems : List CartItem
  orders : List Order
  orderItems : List OrderItem
deriving DecidableEq, Repr

/-! ## Cache layer (services/CacheService.js)

Each CacheService helper is characterized by the list of operations it
performs against the Redis backend. -/

inductive CacheOp
  | get (key : String)
  | setVal (key : String)
  | del (key : String)
  | delPattern (pat : String)
deriving DecidableEq, Repr

def generateCacheKey (pre : String) (params : List String) : String :=
  pre ++ ":" ++ String.intercalate ":" params

def CacheService.invalidateInventoryOps (productId : ℕ) : List CacheOp :=
  [.del (generateCacheKey "inventory" [toString productId])]

def CacheService.invalidateUserOrdersOps (userId : ℕ) : List CacheOp :=
  [.delPattern ("orders:" ++ toString userId ++ ":*")]

def CacheService.setInventoryOps (productId : ℕ) : List CacheOp :=
  [.setVal (generateCacheKey "inventory" [toString productId])]

def CacheService.invalidateProductOps (productId : ℕ) : List CacheOp :=
  [.del (generateCacheKey "product" [toString productId]),
   .delPattern "products:*", .delPattern "category:*:products"]

def CacheService.invalidateAllProductCachesOps : List CacheOp :=
  [.delPattern "product:*", .delPattern "products:*",
   .delPattern "category:*:products", .delPattern "search:*",
   .delPattern "inventory:*"]

/-- Outcome of a controller action: the HTTP-level response, the relational
state after the action, and the cache operations the action performed. -/
structure ActionResult (ρ : Type) where
  response : ρ
  state : Store
  cacheOps : List CacheOp
deriving DecidableEq, Repr

/-! ## Order fulfillment (controllers/orderController.js) -/

/-- One cart line as loaded by createOrder: the cart item joined with its
product and the product's inventory row. -/
structure JoinedItem where
  productId : ℕ
  name : String
  quantity : ℕ
  priceCents : ℕ
  isActive : Bool
  stock : ℤ
deriving DecidableEq, Repr

/-- The include-join of createOrder: each cart item together with its product
and inventory. none models a missing product or inventory row, on which the
JavaScript handler would throw. -/
def joinCartItems (s : Store) : List CartItem → Option (List JoinedItem)
  | [] => some []
  | ci :: rest =>
    match s.products.find? (fun p => p.id == ci.productId),
        s.inventories.find? (fun r => r.productId == ci.productId) with
    | some p, some inv =>
      match joinCartItems s rest with
      | some js => some (⟨ci.productId, p.name, ci.quantity, p.priceCents, p.isActive, inv.quantity⟩ :: js)
      | none => none
    | _, _ => none

/-- Reason attached to an unavailable cart line. The controller reports it as
a message string: "Product is no longer available" for notAvailable, and
"Only (available) items available, but (requested) requested" for
insufficientStock. -/
inductive ItemReason
  | notAvailable
  | insufficientStock (available : ℤ) (requested : ℕ)
deriving DecidableEq, Repr

structure UnavailableItem where
  productName : String
  reason : ItemReason
deriving DecidableEq, Repr

structure OrderItemSpec where
  productId : ℕ
  quantity : ℕ
  priceCents : ℕ
deriving DecidableEq, Repr

/-- The validation loop of createOrder: partitions the cart lines into
unavailable items and order items, accumulating the float total of the
fulfillable lines exactly as the JavaScript does
(totalAmount += parseFloat(item.product.price) * item.quantity). -/
def checkItemsGo : List JoinedItem → List UnavailableItem → List OrderItemSpec → F64 →
    List UnavailableItem × List OrderItemSpec × F64
  | [], us, ois, total => (us, ois, total)
  | j :: rest, us, ois, total =>
    if j.isActive = false then
      checkItemsGo rest (us ++ [⟨j.name, .notAvailable⟩]) ois total
    else if j.stock < (j.quantity : ℤ) then
      checkItemsGo rest (us ++ [⟨j.name, .insufficientStock j.stock j.quantity⟩]) ois total
    else
      checkItemsGo rest us (ois ++ [⟨j.productId, j.quantity, j.priceCents⟩])
        (total.add ((parseFloatCents j.priceCents).mulNat j.quantity))

inductive CreateOrderResult
  | emptyCart
  | unavailable (items : List UnavailableItem)
  | noValidItems
  | created (orderId : ℕ) (totalAmountCents : ℕ)
  | lookupFailed
deriving DecidableEq, Repr

/-- Everything createOrder has computed before entering the transaction: the
cart id, the joined snapshot it read, the order items to create and the float
total. -/
structure OrderPlan where
  cartId : ℕ
  snapshot : List JoinedItem
  orderItems : List OrderItemSpec
  total : F64
deriving DecidableEq, Repr

inductive PlanOutcome
  | reject (r : CreateOrderResult)
  | proceed (p : OrderPlan)
deriving DecidableEq, Repr

def cartItemsOf (s : Store) (cartId : ℕ) : List CartItem :=
  s.cartItems.filter (fun ci => ci.cartId == cartId)

/-- The read-and-validate phase of createOrder (everything before
prisma.$transaction), evaluated against the state s it reads. -/
def createOrderPlan (s : Store) (userId : ℕ) : PlanOutcome :=
  match s.carts.find? (fun c => c.userId == userId) with
  | none => .reject .emptyCart
  | some cart =>
    if cartItemsOf s cart.id = [] then .reject .emptyCart
    else
      match joinCartItems s (cartItemsOf s cart.id) with
      | none => .reject .lookupFailed
      | some js =>
        if (checkItemsGo js [] [] F64.zero).1 ≠ [] then
          .reject (.unavailable (checkItemsGo js [] [] F64.zero).1)
        else if (checkItemsGo js [] [] F64.zero).2.1 = [] then .reject .noValidItems
        else .proceed ⟨cart.id, js, (checkItemsGo js [] [] F64.zero).2.1,
          (checkItemsGo js [] [] F64.zero).2.2⟩

/-- Is this snapshot line one the transaction loop will decrement?
Mirrors item.product.isActive && item.product.inventory.quantity >=
item.quantity, evaluated on the snapshot fields. -/
def fulfillableB (j : JoinedItem) : Bool :=
  j.isActive && decide ((j.quantity : ℤ) ≤ j.stock)

/-- Prisma update with quantity: decrement — applied to the current
inventory table, unconditionally. -/
def decInv (s : Store) (productId : ℕ) (q : ℕ) : Store :=
  { s with inventories := s.inventories.map (fun r =>
      if r.productId = productId then { r with quantity := r.quantity - q } else r) }

/-- Prisma update with quantity: increment. -/
def incInv (s : Store) (productId : ℕ) (q : ℕ) : Store :=
  { s with inventories := s.inventories.map (fun r =>
      if r.productId = productId then { r with quantity := r.quantity + q } else r) }

/-- The inventory-update loop of the createOrder transaction: for each
snapshot line, decrement when the snapshot said the line was fulfillable. The
guard reads the snapshot, not the current table. -/
def applyDecs : Store → List JoinedItem → Store
  | s, [] => s
  | s, j :: rest =>
    applyDecs (if fulfillableB j then decInv s j.productId j.quantity else s) rest

/-- The inventory-restore loop of cancelOrder and of the admin cancellation
branch of updateOrderStatus. -/
def applyIncs : Store → List OrderItem → Store
  | s, [] => s
  | s, it :: rest => applyIncs (incInv s it.productId it.quantity) rest

def freshOrderId (s : Store) : ℕ :=
  (s.orders.map Order.id).foldr max 0 + 1

/-- The body of the createOrder transaction: create the order and its order
items, run the decrement loop against the current state, delete the cart
items. -/
def createOrderCommit (s : Store) (userId : ℕ) (p : OrderPlan) : ℕ × Store :=
  let oid := freshOrderId s
  let order : Order := ⟨oid, userId, .PENDING, p.total.toCents⟩
  let newItems := p.orderItems.map (fun oi =>
    ({ orderId := oid, productId := oi.productId, quantity := oi.quantity,
       priceCents := oi.priceCents } : OrderItem))
  let s1 := { s with orders := s.orders ++ [order], orderItems := s.orderItems ++ newItems }
  let s2 := applyDecs s1 p.snapshot
  (oid, { s2 with cartItems := s2.cartItems.filter (fun ci => ci.cartId != p.cartId) })

/-- POST /api/orders: createOrder, run sequentially (the transaction commits
against the same state the plan was read from). The controller performs no
cache operations. -/
def createOrder (s : Store) (userId : ℕ) : ActionResult CreateOrderResult :=
  match createOrderPlan s userId with
  | .reject r => ⟨r, s, []⟩
  | .proceed p =>
    ⟨.created (createOrderCommit s userId p).1 p.total.toCents,
      (createOrderCommit s userId p).2, []⟩

inductive CancelOrderResult
  | notFound
  | invalidTransition
  | cancelled
deriving DecidableEq, Repr

def setOrderStatus (s : Store) (orderId : ℕ) (st : OrderStatus) : Store :=
  { s with orders := s.orders.map (fun o =>
      if o.id = orderId then { o with status := st } else o) }

def orderItemsOf (s : Store) (orderId : ℕ) : List OrderItem :=
  s.orderItems.filter (fun it => it.orderId == orderId)

/-- DELETE /api/orders/:orderId/cancel: only the owning user, only from
PENDING; sets CANCELLED and restores inventory for each order item. -/
def cancelOrder (s : Store) (userId orderId : ℕ) : ActionResult CancelOrderResult :=
  match s.orders.find? (fun o => o.id == orderId && o.userId == userId) with
  | none => ⟨.notFound, s, []⟩
  | some o =>
    if o.status ≠ .PENDING then ⟨.invalidTransition, s, []⟩
    else ⟨.cancelled, applyIncs (setOrderStatus s orderId .CANCELLED) (orderItemsOf s orderId), []⟩

inductive AdminStatusResult
  | notFound
  | updated
deriving DecidableEq, Repr

/-- PATCH /api/orders/admin/:orderId/status: any of the five statuses passes
validation; cancelling a CONFIRMED or SHIPPED order additionally restores
inventory in the same transaction. -/
def updateOrderStatus (s : Store) (orderId : ℕ) (status : OrderStatus) :
    ActionResult AdminStatusResult :=
  match s.orders.find? (fun o => o.id == orderId) with
  | none => ⟨.notFound, s, []⟩
  | some o =>
    if status = .CANCELLED ∧ (o.status = .CONFIRMED ∨ o.status = .SHIPPED) then
      ⟨.updated, applyIncs (setOrderStatus s orderId status) (orderItemsOf s orderId), []⟩
    else ⟨.updated, setOrderStatus s orderId status, []⟩

/-! ## Admin inventory write (controllers/productController.js) -/

inductive UpdateInventoryResult
  | productNotFound
  | updated (newQuantity : ℕ)
deriving DecidableEq, Repr

def setInvAbs (s : Store) (productId : ℕ) (q : ℕ) : Store :=
  { s with inventories := s.inventories.map (fun r =>
      if r.productId = productId then { r with quantity := (q : ℤ) } else r) }

/-- PUT /api/products/:id/inventory: absolute write of a validated quantity
(joi: integer, min 0 — hence ℕ), followed by cache maintenance. -/
def updateInventory (s : Store) (productId : ℕ) (quantity : ℕ) :
    ActionResult UpdateInventoryResult :=
  match s.products.find? (fun p => p.id == productId) with
  | none => ⟨.productNotFound, s, []⟩
  | some _ =>
    ⟨.updated quantity, setInvAbs s productId quantity,
      CacheService.setInventoryOps productId ++ CacheService.invalidateProductOps productId ++
        CacheService.invalidateAllProductCachesOps⟩

/-! ## Cart reads (controllers/cartController.js) -/

structure CartView where
  httpStatus : ℕ
  items : List JoinedItem
  totalItems : ℕ
  totalAmount : F64
  unavailableItems : List JoinedItem
deriving DecidableEq, Repr

def floatCartSum : List JoinedItem → F64 → F64
  | [], t => t
  | j :: rest, t => floatCartSum rest (t.add ((parseFloatCents j.priceCents).mulNat j.quantity))

/-- GET /api/cart: a user with no cart row gets 200 with an empty view;
otherwise the joined items with float totals
(parseFloat(totalAmount.toFixed(2)) is modelled by rounding the float sum to
cents and re-parsing). none models a failed join (the handler would throw). -/
def getCart (s : Store) (userId : ℕ) : Option CartView :=
  match s.carts.find? (fun c => c.userId == userId) with
  | none => some ⟨200, [], 0, F64.zero, []⟩
  | some cart =>
    match joinCartItems s (cartItemsOf s cart.id) with
    | none => none
    | some js =>
      some ⟨200, js, (js.map JoinedItem.quantity).sum,
        parseFloatCents (floatCartSum js F64.zero).toCents,
        js.filter (fun j => !j.isActive || j.stock == 0)⟩

inductive ClearCartResult
  | cartNotFound
  | cleared
deriving DecidableEq, Repr

def ClearCartResult.httpStatus : ClearCartResult → ℕ
  | .cartNotFound => 404
  | .cleared => 200

/-- DELETE /api/cart/clear: 404 when the user has no cart row; otherwise
deletes the cart items (the cart row itself stays). -/
def clearCart (s : Store) (userId : ℕ) : ActionResult ClearCartResult :=
  match s.carts.find? (fun c => c.userId == userId) with
  | none => ⟨.cartNotFound, s, []⟩
  | some cart =>
    ⟨.cleared, { s with cartItems := s.cartItems.filter (fun ci => ci.cartId != cart.id) }, []⟩

/-! ## Cache failure semantics (services/CacheService.js, C9)

Each CacheService primitive wraps its backend call in try/catch. A backend
outcome is modelled as a JsResult: the value returned, or the exception
raised. -/

/-- Outcome of an awaited JavaScript call: a value, or a raised exception. -/
inductive JsResult (α : Type)
  | ok (val : α)
  | thrown (msg : String)
deriving DecidableEq, Repr

def JsResult.isThrown {α : Type} : JsResult α → Prop
  | .ok _ => False
  | .thrown _ => True

instance {α : Type} (r : JsResult α) : Decidable r.isThrown := by
  cases r <;> unfold JsResult.isThrown <;> infer_instance

/-- CacheService.get: try around client.get plus JSON.parse; on error, log
and return null (a miss). -/
def CacheService.get (raw : JsResult (Option String)) : JsResult (Option String) :=
  match raw with
  | .ok v => .ok v
  | .thrown _ => .ok none

/-- CacheService.set: try around client.setEx; errors are logged and
swallowed. -/
def CacheService.set (raw : JsResult Unit) : JsResult Unit :=
  match raw with
  | .ok _ => .ok ()
  | .thrown _ => .ok ()

/-- CacheService.del: try around client.del; errors are logged and
swallowed. -/
def CacheService.del (raw : JsResult Unit) : JsResult Unit :=
  match raw with
  | .ok _ => .ok ()
  | .thrown _ => .ok ()

/-- CacheService.delPattern: try around client.keys and, when keys came back
nonempty, client.del; errors anywhere inside are logged and swallowed. -/
def CacheService.delPattern (rawKeys : JsResult (List String)) (rawDel : JsResult Unit) :
    JsResult Unit :=
  match rawKeys with
  | .thrown _ => .ok ()
  | .ok keys =>
    if keys = [] then .ok ()
    else
      match rawDel with
      | .thrown _ => .ok ()
      | .ok _ => .ok ()

/-- await f(); k — if the awaited call raises, the handler aborts (HTTP 500
through asyncHandler); otherwise execution continues with k. -/
def seqJs {α : Type} : JsResult Unit → JsResult α → JsResult α
  | .thrown e, _ => .thrown e
  | .ok _, k => k

/-- updateInventory with the Redis layer visible: after the database write,
the controller awaits CacheService.setInventory (one set),
CacheService.invalidateProduct (one del, two delPattern) and
CacheService.invalidateAllProductCaches (five delPattern); each backend
outcome is a parameter. The handler would fail only if one of these awaited
calls raised. -/
def updateInventoryRun (s : Store) (productId quantity : ℕ)
    (rawSet rawDel : JsResult Unit)
    (k1 k2 k3 k4 k5 k6 k7 : JsResult (List String))
    (d1 d2 d3 d4 d5 d6 d7 : JsResult Unit) :
    JsResult (ActionResult UpdateInventoryResult) :=
  match s.products.find? (fun p => p.id == productId) with
  | none => .ok ⟨.productNotFound, s, []⟩
  | some _ =>
    seqJs (CacheService.set rawSet)
      (seqJs (CacheService.del rawDel)
        (seqJs (CacheService.delPattern k1 d1)
          (seqJs (CacheService.delPattern k2 d2)
            (seqJs (CacheService.delPattern k3 d3)
              (seqJs (CacheService.delPattern k4 d4)
                (seqJs (CacheService.delPattern k5 d5)
                  (seqJs (CacheService.delPattern k6 d6)
                    (seqJs (CacheService.delPattern k7 d7)
                      (.ok (updateInventory s productId quantity))))))))))

/-! ## Derived notions used by the claims -/

/-- Schema-level well-formedness guaranteed by the Prisma unique constraints:
order ids are unique, one inventory row per product, at most one cart item
per (cart, product) pair. -/
structure StoreWF (s : Store) : Prop where
  ordersUnique : s.orders.Pairwise (fun a b => a.id ≠ b.id)
  inventoriesUnique : s.inventories.Pairwise (fun a b => a.productId ≠ b.productId)
  cartItemsUnique : s.cartItems.Pairwise (fun a b => a.cartId ≠ b.cartId ∨ a.productId ≠ b.productId)

/-- Every inventory quantity is nonnegative. -/
def InvNonneg (s : Store) : Prop := ∀ r ∈ s.inventories, 0 ≤ r.quantity

/-- The unavailable-items report of the validation loop, in closed form: one
entry per unfulfillable cart line, in cart order. -/
def unavailableOf (js : List JoinedItem) : List UnavailableItem :=
  js.filterMap (fun j =>
    if j.isActive = false then some ⟨j.name, .notAvailable⟩
    else if j.stock < (j.quantity : ℤ) then some ⟨j.name, .insufficientStock j.stock j.quantity⟩
    else none)

/-- Total quantity the createOrder transaction decrements from product p. -/
def decTotal (js : List JoinedItem) (p : ℕ) : ℕ :=
  ((js.filter (fun j => fulfillableB j && j.productId == p)).map JoinedItem.quantity).sum

/-- Total quantity the restore loops increment onto product p: each order
item counted exactly once. -/
def incTotal (items : List OrderItem) (p : ℕ) : ℕ :=
  ((items.filter (fun it => it.productId == p)).map OrderItem.quantity).sum

/-- The total specified for an order: sum of captured price times quantity
over its order items, in exact fixed-point cents (on 2-decimal prices and
integer quantities the specified 2-decimal rounding is the identity). -/
def fixedPointTotalCents (items : List OrderItem) : ℕ :=
  (items.map (fun it => it.priceCents * it.quantity)).sum

/-- Position of a status along the forward chain
PENDING -> CONFIRMED -> SHIPPED -> DELIVERED stated by the spec. -/
def statusRank : OrderStatus → ℕ
  | .PENDING => 0
  | .CONFIRMED => 1
  | .SHIPPED => 2
  | .DELIVERED => 3
  | .CANCELLED => 4

/-! ## Concrete stores used as witnesses and counterexamples -/

/-- One user (id 1) whose cart holds 2 units of product P (price 9.99,
stock 5): the end-to-end scenario of the spec. -/
def demoStoreP : Store :=
  { products := [⟨10, "P", 999, true⟩],
    inventories := [⟨10, 5⟩],
    carts := [⟨1, 1⟩],
    cartItems := [⟨1, 10, 2⟩],
    orders := [], orderItems := [] }

/-- The rejection scenario of the spec: the cart holds 2 units of P
(price 9.99, stock 5) and 1 unit of Q (price 5.00, stock 0). -/
def demoStorePQ : Store :=
  { products := [⟨10, "P", 999, true⟩, ⟨11, "Q", 500, true⟩],
    inventories := [⟨10, 5⟩, ⟨11, 0⟩],
    carts := [⟨1, 1⟩],
    cartItems := [⟨1, 10, 2⟩, ⟨1, 11, 1⟩],
    orders := [], orderItems := [] }

/-- Two users, each with a cart of 3 units of product P, stock 5: the
oversell race. -/
def raceStore : Store :=
  { products := [⟨10, "P", 999, true⟩],
    inventories := [⟨10, 5⟩],
    carts := [⟨1, 1⟩, ⟨2, 2⟩],
    cartItems := [⟨1, 10, 3⟩, ⟨2, 10, 3⟩],
    orders := [], orderItems := [] }

/-- The plan a createOrder call computes from the shared pre-race snapshot. -/
def racePlan (userId : ℕ) : OrderPlan :=
  match createOrderPlan raceStore userId with
  | .proceed p => p
  | .reject _ => ⟨0, [], [], F64.zero⟩

/-- The store after both racing transactions committed their decrements. -/
def raceFinal : Store :=
  (createOrderCommit (createOrderCommit raceStore 1 (racePlan 1)).2 2 (racePlan 2)).2

/-- A cart holding one unit priced 0.10 and one priced 0.20. -/
def dimeStore : Store :=
  { products := [⟨10, "A", 10, true⟩, ⟨11, "B", 20, true⟩],
    inventories := [⟨10, 9⟩, ⟨11, 9⟩],
    carts := [⟨1, 1⟩],
    cartItems := [⟨1, 10, 1⟩, ⟨1, 11, 1⟩],
    orders := [], orderItems := [] }

/-- The plan createOrder computes on dimeStore for user 1. -/
def dimePlan : OrderPlan :=
  match createOrderPlan dimeStore 1 with
  | .proceed p => p
  | .reject _ => ⟨0, [], [], F64.zero⟩

/-- The plan createOrder computes on demoStoreP for user 1. -/
def demoPlanP : OrderPlan :=
  match createOrderPlan demoStoreP 1 with
  | .proceed p => p
  | .reject _ => ⟨0, [], [], F64.zero⟩

/-- A store holding one DELIVERED order. -/
def deliveredStore : Store :=
  { products := [], inventories := [], carts := [], cartItems := [],
    orders := [⟨1, 1, .DELIVERED, 1998⟩], orderItems := [] }

/-! ## Helper lemmas -/

theorem seqJs_set (raw : JsResult Unit) {α : Type} (k : JsResult α) :
    seqJs (CacheService.set raw) k = k := by
  cases raw <;> rfl

theorem seqJs_del (raw : JsResult Unit) {α : Type} (k : JsResult α) :
    seqJs (CacheService.del raw) k = k := by
  cases raw <;> rfl

theorem seqJs_delPattern (rawKeys : JsResult (List String)) (rawDel : JsResult Unit)
    {α : Type} (k : JsResult α) : seqJs (CacheService.delPattern rawKeys rawDel) k = k := by
  cases rawKeys with
  | thrown m => rfl
  | ok keys => cases rawDel <;> simp [CacheService.delPattern, seqJs]

/-! ## Claims -/

/-- C2: if placeOrder rejects — the cart is missing or empty (EmptyCart), or
some item is unfulfillable (OrderRejected) — the store is unchanged: no
order, order-item or inventory row is created or mutated and the cart and
its items are exactly as before. -/
theorem placeOrder_reject_no_mutation (s : Store) (userId : ℕ)
    (h : (createOrder s userId).response = .emptyCart ∨
         ∃ us, (createOrder s userId).response = .unavailable us) :
    (createOrder s userId).state = s ∧
    (createOrder s userId).state.orders = s.orders ∧
    (createOrder s userId).state.orderItems = s.orderItems ∧
    (createOrder s userId).state.inventories = s.inventories ∧
    (createOrder s userId).state.carts = s.carts ∧
    (createOrder s userId).state.cartItems = s.cartItems := by
  cases hp : createOrderPlan s userId with
  | reject r =>
    have hs : (createOrder s userId).state = s := by simp [createOrder, hp]
    exact ⟨hs, by rw [hs], by rw [hs], by rw [hs], by rw [hs], by rw [hs]⟩
  | proceed p =>
    exfalso
    rcases hc : createOrderCommit s userId p with ⟨oid, s2⟩
    have hr : (createOrder s userId).response = .created oid p.total.toCents := by
      simp [createOrder, hp, hc]
    rcases h with h | ⟨us, h⟩ <;> rw [hr] at h <;> simp at h

/-- C2 witness: on a store with no carts, placeOrder rejects with EmptyCart
and leaves the store unchanged. -/
theorem placeOrder_reject_no_mutation_witness :
    (createOrder ⟨[], [], [], [], [], []⟩ 1).response = .emptyCart ∧
    (createOrder ⟨[], [], [], [], [], []⟩ 1).state = ⟨[], [], [], [], [], []⟩ :=
  ⟨by decide, (placeOrder_reject_no_mutation ⟨[], [], [], [], [], []⟩ 1 (Or.inl (by decide))).1⟩

/-- C3: the no-oversell property fails. Both racing placeOrder calls read the
same snapshot (stock 5), each plans to take 3, and each transaction applies
its decrement unconditionally (guarded only by the stale snapshot): both
succeed, 3 + 3 = 6 > 5 units are decremented, and the inventory row ends at
-1. The decrement is an application-level read-then-write, not a conditional
store-side operation. -/
theorem placeOrder_race_oversell :
    createOrderPlan raceStore 1 = .proceed (racePlan 1) ∧
    createOrderPlan raceStore 2 = .proceed (racePlan 2) ∧
    (racePlan 1).orderItems = [⟨10, 3, 999⟩] ∧
    (racePlan 2).orderItems = [⟨10, 3, 999⟩] ∧
    raceStore.inventories = [⟨10, 5⟩] ∧
    raceFinal.inventories = [⟨10, -1⟩] := by decide

/-- C4 counterexample: for the cart holding one unit priced 0.10 and one
priced 0.20, createOrder computes totalAmount with binary64 floating point:
the computed amount is 1351079888211149 * 2 ^ (-52) = 0.30000000000000004,
not the fixed-point sum 0.30 — so totalAmount is not computed with
fixed-point (never floating-point) arithmetic as claimed. -/
theorem totalAmount_not_fixed_point :
    createOrderPlan dimeStore 1 = .proceed dimePlan ∧
    fixedPointTotalCents (createOrder dimeStore 1).state.orderItems = 30 ∧
    dimePlan.total = ⟨1351079888211149, -52⟩ ∧
    ¬ dimePlan.total.ratEq 30 100 := by decide

/-- C4 amended: totalAmount is computed with binary64 floating-point
arithmetic (parseFloat(price) * quantity, summed with +=), not fixed point,
and is rounded to 2 decimals only by the Decimal(10,2) column on storage.
For the cart of 2 units at 9.99 the computed double equals parseFloat(19.98)
— hence it stores as exactly 19.98 (1998 cents), matching the fixed-point
sum — but it is not exactly the rational 19.98. For the 0.10 + 0.20 cart the
computed double differs from the fixed-point 0.30, storing nevertheless as
0.30 after column rounding. -/
theorem totalAmount_float_behavior :
    createOrderPlan demoStoreP 1 = .proceed demoPlanP ∧
    demoPlanP.total = parseFloatCents 1998 ∧
    ¬ demoPlanP.total.ratEq 1998 100 ∧
    (createOrder demoStoreP 1).response = .created 1 1998 ∧
    fixedPointTotalCents (createOrder demoStoreP 1).state.orderItems = 1998 ∧
    (createOrder dimeStore 1).response = .created 1 30 ∧
    dimePlan.total.toCents = 30 := by decide

/-- C6 counterexample: adminUpdateOrderStatus moves a DELIVERED order back to
PENDING — a backward transition along the chain
PENDING -> CONFIRMED -> SHIPPED -> DELIVERED — refuting that only forward
transitions are permitted. -/
theorem admin_backward_transition :
    (updateOrderStatus deliveredStore 1 .PENDING).response = .updated ∧
    (updateOrderStatus deliveredStore 1 .PENDING).state.orders = [⟨1, 1, .PENDING, 1998⟩] ∧
    ¬ statusRank .DELIVERED < statusRank .PENDING := by decide

/-- C7 counterexample: a successful placeOrder performs no cache operation at
all — in particular neither the del on the ordered product inventory key
(CacheService.invalidateInventory) nor the delPattern on the user order-list
keys (CacheService.invalidateUserOrders), although the cache layer defines
both. -/
theorem createOrder_no_invalidation :
    (createOrder demoStoreP 1).response = .created 1 1998 ∧
    (createOrder demoStoreP 1).cacheOps = [] ∧
    CacheService.invalidateInventoryOps 10 = [.del "inventory:10"] ∧
    CacheService.invalidateUserOrdersOps 1 = [.delPattern "orders:1:*"] ∧
    CacheOp.del "inventory:10" ∉ (createOrder demoStoreP 1).cacheOps ∧
    CacheOp.delPattern "orders:1:*" ∉ (createOrder demoStoreP 1).cacheOps := by decide

/-- C7 amended: placeOrder triggers no cache invalidation whatsoever — the
order controller performs no cache operations, so the affected inventory
entries and the user order-list entries are untouched and only expire by
TTL. -/
theorem createOrder_cacheOps_empty (s : Store) (userId : ℕ) :
    (createOrder s userId).cacheOps = [] := by
  cases hp : createOrderPlan s userId with
  | reject r => simp [createOrder, hp]
  | proceed p =>
    rcases hc : createOrderCommit s userId p with ⟨oid, s2⟩
    simp [createOrder, hp, hc]

/-- C9: every CacheService primitive catches backend failures — get degrades
to a miss (null) and never raises; set, del and delPattern always return
normally whatever the backend outcome — and therefore a triggering mutation
(updateInventory, with its one set, one del and seven delPattern calls)
returns exactly the pure controller outcome for every combination of backend
failures. -/
theorem cache_failures_not_propagated :
    (∀ raw : JsResult (Option String), raw.isThrown → CacheService.get raw = .ok none) ∧
    (∀ raw : JsResult (Option String), ¬ (CacheService.get raw).isThrown) ∧
    (∀ raw : JsResult Unit, CacheService.set raw = .ok ()) ∧
    (∀ raw : JsResult Unit, CacheService.del raw = .ok ()) ∧
    (∀ (rawKeys : JsResult (List String)) (rawDel : JsResult Unit),
      CacheService.delPattern rawKeys rawDel = .ok ()) ∧
    (∀ (s : Store) (productId quantity : ℕ) (rawSet rawDel : JsResult Unit)
        (k1 k2 k3 k4 k5 k6 k7 : JsResult (List String)) (d1 d2 d3 d4 d5 d6 d7 : JsResult Unit),
      updateInventoryRun s productId quantity rawSet rawDel
          k1 k2 k3 k4 k5 k6 k7 d1 d2 d3 d4 d5 d6 d7 =
        .ok (updateInventory s productId quantity)) := by
  refine ⟨?_, ?_, ?_, ?_, ?_, ?_⟩
  · rintro (v | m) h
    · exact absurd h (by simp [JsResult.isThrown])
    · rfl
  · rintro (v | m) <;> simp [CacheService.get, JsResult.isThrown]
  · rintro (v | m) <;> rfl
  · rintro (v | m) <;> rfl
  · intro rawKeys rawDel
    cases rawKeys with
    | thrown m => rfl
    | ok keys => cases rawDel <;> simp [CacheService.delPattern]
  · intro s productId quantity rawSet rawDel k1 k2 k3 k4 k5 k6 k7 d1 d2 d3 d4 d5 d6 d7
    cases hf : s.products.find? (fun p => p.id == productId) with
    | none => simp [updateInventoryRun, updateInventory, hf]
    | some p =>
      simp [updateInventoryRun, updateInventory, hf,
        seqJs_set, seqJs_del, seqJs_delPattern]

/-- C9 witness: with the backend raising on every call, get returns a miss
and updateInventory still returns its pure outcome. -/
theorem cache_failures_not_propagated_witness :
    CacheService.get (JsResult.thrown "redis down") = .ok none ∧
    updateInventoryRun demoStoreP 10 7 (.thrown "e0") (.thrown "e1")
        (.thrown "e2") (.thrown "e3") (.thrown "e4") (.thrown "e5") (.thrown "e6")
        (.thrown "e7") (.thrown "e8") (.thrown "e9") (.thrown "ea") (.thrown "eb")
        (.thrown "ec") (.thrown "ed") (.thrown "ee") (.thrown "ef") =
      .ok (updateInventory demoStoreP 10 7) :=
  ⟨cache_failures_not_propagated.1 _ trivial,
   cache_failures_not_propagated.2.2.2.2.2 demoStoreP 10 7 _ _ _ _ _ _ _ _ _ _ _ _ _ _ _ _⟩

/-- C10: a user with no cart row gets HTTP 200 from getCart with the empty
representation (items = [], totalItems = 0, totalAmount = 0), while
clearCart for the same user returns 404 (Cart not found) and changes
nothing. -/
theorem getCart_clearCart_missing_cart (s : Store) (userId : ℕ)
    (h : ∀ c ∈ s.carts, c.userId ≠ userId) :
    getCart s userId = some ⟨200, [], 0, F64.zero, []⟩ ∧
    (clearCart s userId).response = .cartNotFound ∧
    (clearCart s userId).response.httpStatus = 404 ∧
    (clearCart s userId).state = s := by
  have hf : s.carts.find? (fun c => c.userId == userId) = none := by
    rw [List.find?_eq_none]
    intro c hc
    simpa using h c hc
  refine ⟨?_, ?_, ?_, ?_⟩ <;>
    simp [getCart, clearCart, hf, ClearCartResult.httpStatus]

/-- C10 witness: user 5 has no cart in the demo store. -/
theorem getCart_clearCart_missing_cart_witness :
    getCart demoStorePQ 5 = some ⟨200, [], 0, F64.zero, []⟩ ∧
    (clearCart demoStorePQ 5).response = .cartNotFound ∧
    (clearCart demoStorePQ 5).response.httpStatus = 404 ∧
    (clearCart demoStorePQ 5).state = demoStorePQ :=
  getCart_clearCart_missing_cart demoStorePQ 5 (by decide)

theorem checkItemsGo_fst (js : List JoinedItem) (us : List UnavailableItem)
    (ois : List OrderItemSpec) (t : F64) :
    (checkItemsGo js us ois t).1 = us ++ unavailableOf js := by
  induction js generalizing us ois t with
  | nil => simp [checkItemsGo, unavailableOf]
  | cons j rest ih =>
    by_cases h1 : j.isActive = false
    · simp [checkItemsGo, unavailableOf, h1, ih]
    · by_cases h2 : j.stock < (j.quantity : ℤ)
      · simp [checkItemsGo, unavailableOf, h1, h2, ih]
      · simp [checkItemsGo, unavailableOf, h1, h2, ih]

theorem decTotal_cons (j : JoinedItem) (rest : List JoinedItem) (p : ℕ) :
    decTotal (j :: rest) p =
      (if fulfillableB j && j.productId == p then j.quantity else 0) + decTotal rest p := by
  by_cases h : (fulfillableB j && j.productId == p) = true
  · simp [decTotal, List.filter_cons, h]
  · simp [decTotal, List.filter_cons, h]

theorem decTotal_eq_zero (js : List JoinedItem) (p : ℕ)
    (h : ∀ j ∈ js, j.productId ≠ p) : decTotal js p = 0 := by
  induction js with
  | nil => simp [decTotal]
  | cons j rest ih =>
    have hb : (j.productId == p) = false := by
      simp [h j (List.mem_cons_self _ _)]
    rw [decTotal_cons, ih (fun j2 hj2 => h j2 (List.mem_cons_of_mem _ hj2))]
    simp [hb]

theorem incTotal_cons (it : OrderItem) (rest : List OrderItem) (p : ℕ) :
    incTotal (it :: rest) p =
      (if it.productId == p then it.quantity else 0) + incTotal rest p := by
  by_cases h : (it.productId == p) = true
  · simp [incTotal, List.filter_cons, h]
  · simp [incTotal, List.filter_cons, h]

theorem applyIncs_eq (items : List OrderItem) (s : Store) :
    applyIncs s items =
      { s with inventories := s.inventories.map (fun r =>
          { r with quantity := r.quantity + (incTotal items r.productId : ℤ) }) } := by
  induction items generalizing s with
  | nil =>
    have hfun : (fun r : InventoryRow =>
        { r with quantity := r.quantity + (incTotal [] r.productId : ℤ) }) = fun r => r := by
      funext r
      cases r
      simp [incTotal]
    show s = _
    rw [hfun]
    cases s
    simp
  | cons it rest ih =>
    show applyIncs (incInv s it.productId it.quantity) rest = _
    rw [ih]
    cases s with
    | mk ps invs cs cis os ois =>
    simp only [incInv, List.map_map]
    have hfun : ((fun r : InventoryRow =>
          { r with quantity := r.quantity + (incTotal rest r.productId : ℤ) }) ∘
        (fun r : InventoryRow =>
          if r.productId = it.productId then { r with quantity := r.quantity + (it.quantity : ℤ) }
          else r)) =
        (fun r : InventoryRow =>
          { r with quantity := r.quantity + (incTotal (it :: rest) r.productId : ℤ) }) := by
      funext r
      by_cases hp : r.productId = it.productId
      · simp [Function.comp, hp, incTotal_cons]
        ring
      · have hb : (it.productId == r.productId) = false := by
          simp [Ne.symm hp]
        simp [Function.comp, hp, incTotal_cons, hb]
    rw [hfun]

theorem applyDecs_eq (js : List JoinedItem) (s : Store) :
    applyDecs s js =
      { s with inventories := s.inventories.map (fun r =>
          { r with quantity := r.quantity - (decTotal js r.productId : ℤ) }) } := by
  induction js generalizing s with
  | nil =>
    have hfun : (fun r : InventoryRow =>
        { r with quantity := r.quantity - (decTotal [] r.productId : ℤ) }) = fun r => r := by
      funext r
      cases r
      simp [decTotal]
    show s = _
    rw [hfun]
    cases s
    simp
  | cons j rest ih =>
    show applyDecs (if fulfillableB j then decInv s j.productId j.quantity else s) rest = _
    by_cases hf : fulfillableB j = true
    · rw [if_pos hf, ih]
      cases s with
      | mk ps invs cs cis os ois =>
      simp only [decInv, List.map_map]
      have hfun : ((fun r : InventoryRow =>
            { r with quantity := r.quantity - (decTotal rest r.productId : ℤ) }) ∘
          (fun r : InventoryRow =>
            if r.productId = j.productId then { r with quantity := r.quantity - (j.quantity : ℤ) }
            else r)) =
          (fun r : InventoryRow =>
            { r with quantity := r.quantity - (decTotal (j :: rest) r.productId : ℤ) }) := by
        funext r
        by_cases hp : r.productId = j.productId
        · simp [Function.comp, hp, decTotal_cons, hf]
          ring
        · have hb : (j.productId == r.productId) = false := by
            simp [Ne.symm hp]
          simp [Function.comp, hp, decTotal_cons, hb]
      rw [hfun]
    · rw [if_neg hf, ih]
      have hf2 : fulfillableB j = false := by
        revert hf
        cases fulfillableB j <;> simp
      have hfun : (fun r : InventoryRow =>
          { r with quantity := r.quantity - (decTotal rest r.productId : ℤ) }) =
          (fun r : InventoryRow =>
            { r with quantity := r.quantity - (decTotal (j :: rest) r.productId : ℤ) }) := by
        funext r
        simp [decTotal_cons, hf2]
      rw [hfun]

theorem createOrderPlan_nocart (s : Store) (userId : ℕ)
    (hc : s.carts.find? (fun c => c.userId == userId) = none) :
    createOrderPlan s userId = .reject .emptyCart := by
  unfold createOrderPlan
  rw [hc]

theorem createOrderPlan_cart (s : Store) (userId : ℕ) (cart : Cart)
    (hc : s.carts.find? (fun c => c.userId == userId) = some cart) :
    createOrderPlan s userId =
      if cartItemsOf s cart.id = [] then .reject .emptyCart
      else
        match joinCartItems s (cartItemsOf s cart.id) with
        | none => .reject .lookupFailed
        | some js =>
          if (checkItemsGo js [] [] F64.zero).1 ≠ [] then
            .reject (.unavailable (checkItemsGo js [] [] F64.zero).1)
          else if (checkItemsGo js [] [] F64.zero).2.1 = [] then .reject .noValidItems
          else .proceed ⟨cart.id, js, (checkItemsGo js [] [] F64.zero).2.1,
            (checkItemsGo js [] [] F64.zero).2.2⟩ := by
  unfold createOrderPlan
  rw [hc]

theorem createOrderPlan_joined (s : Store) (userId : ℕ) (cart : Cart) (js : List JoinedItem)
    (hc : s.carts.find? (fun c => c.userId == userId) = some cart)
    (hcis : cartItemsOf s cart.id ≠ [])
    (hj : joinCartItems s (cartItemsOf s cart.id) = some js) :
    createOrderPlan s userId =
      if (checkItemsGo js [] [] F64.zero).1 ≠ [] then
        .reject (.unavailable (checkItemsGo js [] [] F64.zero).1)
      else if (checkItemsGo js [] [] F64.zero).2.1 = [] then .reject .noValidItems
      else .proceed ⟨cart.id, js, (checkItemsGo js [] [] F64.zero).2.1,
        (checkItemsGo js [] [] F64.zero).2.2⟩ := by
  rw [createOrderPlan_cart s userId cart hc, if_neg hcis, hj]

theorem createOrder_reject (s : Store) (userId : ℕ) (r : CreateOrderResult)
    (h : createOrderPlan s userId = .reject r) :
    createOrder s userId = ⟨r, s, []⟩ := by
  unfold createOrder
  rw [h]

theorem createOrder_proceed (s : Store) (userId : ℕ) (p : OrderPlan)
    (h : createOrderPlan s userId = .proceed p) :
    createOrder s userId =
      ⟨.created (createOrderCommit s userId p).1 p.total.toCents,
        (createOrderCommit s userId p).2, []⟩ := by
  unfold createOrder
  rw [h]

theorem cancelOrder_notFound (s : Store) (userId orderId : ℕ)
    (h : s.orders.find? (fun o => o.id == orderId && o.userId == userId) = none) :
    cancelOrder s userId orderId = ⟨.notFound, s, []⟩ := by
  unfold cancelOrder
  rw [h]

theorem cancelOrder_found (s : Store) (userId orderId : ℕ) (o : Order)
    (h : s.orders.find? (fun o2 => o2.id == orderId && o2.userId == userId) = some o) :
    cancelOrder s userId orderId =
      if o.status ≠ .PENDING then ⟨.invalidTransition, s, []⟩
      else ⟨.cancelled, applyIncs (setOrderStatus s orderId .CANCELLED) (orderItemsOf s orderId), []⟩ := by
  unfold cancelOrder
  rw [h]

theorem updateOrderStatus_notFound (s : Store) (orderId : ℕ) (status : OrderStatus)
    (h : s.orders.find? (fun o => o.id == orderId) = none) :
    updateOrderStatus s orderId status = ⟨.notFound, s, []⟩ := by
  unfold updateOrderStatus
  rw [h]

theorem updateOrderStatus_found (s : Store) (orderId : ℕ) (status : OrderStatus) (o : Order)
    (h : s.orders.find? (fun o2 => o2.id == orderId) = some o) :
    updateOrderStatus s orderId status =
      if status = .CANCELLED ∧ (o.status = .CONFIRMED ∨ o.status = .SHIPPED) then
        ⟨.updated, applyIncs (setOrderStatus s orderId status) (orderItemsOf s orderId), []⟩
      else ⟨.updated, setOrderStatus s orderId status, []⟩ := by
  unfold updateOrderStatus
  rw [h]

theorem updateInventory_notFound (s : Store) (productId quantity : ℕ)
    (h : s.products.find? (fun p => p.id == productId) = none) :
    updateInventory s productId quantity = ⟨.productNotFound, s, []⟩ := by
  unfold updateInventory
  rw [h]

theorem updateInventory_found (s : Store) (productId quantity : ℕ) (p : Product)
    (h : s.products.find? (fun p2 => p2.id == productId) = some p) :
    updateInventory s productId quantity =
      ⟨.updated quantity, setInvAbs s productId quantity,
        CacheService.setInventoryOps productId ++ CacheService.invalidateProductOps productId ++
          CacheService.invalidateAllProductCachesOps⟩ := by
  unfold updateInventory
  rw [h]

theorem find?_inventory_self (l : List InventoryRow) (r : InventoryRow)
    (hu : l.Pairwise (fun a b => a.productId ≠ b.productId)) (hr : r ∈ l) :
    l.find? (fun r2 => r2.productId == r.productId) = some r := by
  induction l with
  | nil => cases hr
  | cons a rest ih =>
    rcases List.pairwise_cons.mp hu with ⟨ha, hrest⟩
    rcases List.mem_cons.mp hr with rfl | hr2
    · exact List.find?_cons_of_pos _ (by simp)
    · rw [List.find?_cons_of_neg]
      · exact ih hrest hr2
      · simp [ha r hr2]

theorem find?_order_owner (l : List Order) (o : Order) (orderId userId : ℕ)
    (hu : l.Pairwise (fun a b => a.id ≠ b.id)) (ho : o ∈ l)
    (hid : o.id = orderId) (huid : o.userId = userId) :
    l.find? (fun o2 => o2.id == orderId && o2.userId == userId) = some o := by
  induction l with
  | nil => cases ho
  | cons a rest ih =>
    rcases List.pairwise_cons.mp hu with ⟨ha, hrest⟩
    rcases List.mem_cons.mp ho with rfl | ho2
    · exact List.find?_cons_of_pos _ (by simp [hid, huid])
    · rw [List.find?_cons_of_neg]
      · exact ih hrest ho2
      · have h2 : a.id ≠ orderId := by
          rw [← hid]
          exact ha o ho2
        simp [h2]

theorem find?_order_id (l : List Order) (o : Order) (orderId : ℕ)
    (hu : l.Pairwise (fun a b => a.id ≠ b.id)) (ho : o ∈ l) (hid : o.id = orderId) :
    l.find? (fun o2 => o2.id == orderId) = some o := by
  induction l with
  | nil => cases ho
  | cons a rest ih =>
    rcases List.pairwise_cons.mp hu with ⟨ha, hrest⟩
    rcases List.mem_cons.mp ho with rfl | ho2
    · exact List.find?_cons_of_pos _ (by simp [hid])
    · rw [List.find?_cons_of_neg]
      · exact ih hrest ho2
      · have h2 : a.id ≠ orderId := by
          rw [← hid]
          exact ha o ho2
        simp [h2]

theorem joinCartItems_cons_inv (s : Store) (ci : CartItem) (rest : List CartItem)
    (out : List JoinedItem) (h : joinCartItems s (ci :: rest) = some out) :
    ∃ p inv js, s.products.find? (fun p2 => p2.id == ci.productId) = some p ∧
      s.inventories.find? (fun r => r.productId == ci.productId) = some inv ∧
      joinCartItems s rest = some js ∧
      out = ⟨ci.productId, p.name, ci.quantity, p.priceCents, p.isActive, inv.quantity⟩ :: js := by
  unfold joinCartItems at h
  cases hp : s.products.find? (fun p2 => p2.id == ci.productId) with
  | none => rw [hp] at h; simp at h
  | some p =>
    rw [hp] at h
    cases hi : s.inventories.find? (fun r => r.productId == ci.productId) with
    | none => rw [hi] at h; simp at h
    | some inv =>
      rw [hi] at h
      cases hj : joinCartItems s rest with
      | none => rw [hj] at h; simp at h
      | some js =>
        rw [hj] at h
        simp at h
        exact ⟨p, inv, js, rfl, rfl, rfl, h.symm⟩

theorem joinCartItems_pids (s : Store) (cis : List CartItem) (js : List JoinedItem)
    (h : joinCartItems s cis = some js) :
    js.map JoinedItem.productId = cis.map CartItem.productId := by
  induction cis generalizing js with
  | nil =>
    have h2 : ([] : List JoinedItem) = js := by injection h
    rw [← h2]
    rfl
  | cons ci rest ih =>
    rcases joinCartItems_cons_inv s ci rest js h with ⟨p, inv, js2, hp, hi, hj, rfl⟩
    simp [ih js2 hj]

theorem joinCartItems_stock (s : Store) (cis : List CartItem) (js : List JoinedItem)
    (h : joinCartItems s cis = some js) :
    ∀ j ∈ js, ∃ inv : InventoryRow,
      s.inventories.find? (fun r => r.productId == j.productId) = some inv ∧
      j.stock = inv.quantity := by
  induction cis generalizing js with
  | nil =>
    have h2 : ([] : List JoinedItem) = js := by injection h
    rw [← h2]
    intro j hj
    cases hj
  | cons ci rest ih =>
    rcases joinCartItems_cons_inv s ci rest js h with ⟨p, inv, js2, hp, hi, hj, rfl⟩
    intro j hjm
    rcases List.mem_cons.mp hjm with rfl | hm
    · exact ⟨inv, hi, rfl⟩
    · exact ih js2 hj j hm

theorem createOrderPlan_proceed_inv (s : Store) (userId : ℕ) (p : OrderPlan)
    (h : createOrderPlan s userId = .proceed p) :
    ∃ cart, s.carts.find? (fun c => c.userId == userId) = some cart ∧
      p.cartId = cart.id ∧
      joinCartItems s (cartItemsOf s cart.id) = some p.snapshot ∧
      unavailableOf p.snapshot = [] := by
  cases hc : s.carts.find? (fun c => c.userId == userId) with
  | none => rw [createOrderPlan_nocart s userId hc] at h; simp at h
  | some cart =>
    by_cases hcis : cartItemsOf s cart.id = []
    · rw [createOrderPlan_cart s userId cart hc, if_pos hcis] at h
      simp at h
    · cases hj : joinCartItems s (cartItemsOf s cart.id) with
      | none =>
        rw [createOrderPlan_cart s userId cart hc, if_neg hcis, hj] at h
        simp at h
      | some js =>
        rw [createOrderPlan_joined s userId cart js hc hcis hj] at h
        by_cases hus : (checkItemsGo js [] [] F64.zero).1 ≠ []
        · rw [if_pos hus] at h; simp at h
        · rw [if_neg hus] at h
          by_cases hois : (checkItemsGo js [] [] F64.zero).2.1 = []
          · rw [if_pos hois] at h; simp at h
          · rw [if_neg hois] at h
            have hp2 : (⟨cart.id, js, (checkItemsGo js [] [] F64.zero).2.1,
                (checkItemsGo js [] [] F64.zero).2.2⟩ : OrderPlan) = p := by
              injection h
            have hus2 : (checkItemsGo js [] [] F64.zero).1 = [] := not_not.mp hus
            have hunav : unavailableOf js = [] := by
              have := checkItemsGo_fst js [] [] F64.zero
              rw [hus2, List.nil_append] at this
              exact this.symm
            refine ⟨cart, rfl, ?_, ?_, ?_⟩
            · rw [← hp2]
            · rw [← hp2]
              exact hj
            · rw [← hp2]
              exact hunav

theorem createOrder_unavailable_core (s : Store) (userId : ℕ) (cart : Cart) (js : List JoinedItem)
    (hc : s.carts.find? (fun c => c.userId == userId) = some cart)
    (hj : joinCartItems s (cartItemsOf s cart.id) = some js)
    (hne : unavailableOf js ≠ []) :
    createOrder s userId = ⟨.unavailable (unavailableOf js), s, []⟩ := by
  have hcis : cartItemsOf s cart.id ≠ [] := by
    intro h0
    rw [h0] at hj
    have h2 : ([] : List JoinedItem) = js := by injection hj
    apply hne
    rw [← h2]
    rfl
  have hfst : (checkItemsGo js [] [] F64.zero).1 = unavailableOf js := by
    rw [checkItemsGo_fst, List.nil_append]
  have hplan : createOrderPlan s userId = .reject (.unavailable (unavailableOf js)) := by
    rw [createOrderPlan_joined s userId cart js hc hcis hj, if_pos, hfst]
    rw [hfst]
    exact hne
  rw [createOrder_reject s userId _ hplan]

/-- C8: whenever at least one cart line is unfulfillable, createOrder rejects
the entire order — no partial order, the store is untouched — and the
response itemizes exactly the unfulfillable lines, in cart order, each with a
reason distinguishing notAvailable (inactive product) from insufficientStock,
the latter carrying the available quantity alongside the requested one (the
controller renders it as "Only N items available, but M requested"). -/
theorem placeOrder_unavailable_itemized (s : Store) (userId : ℕ) (cart : Cart)
    (js : List JoinedItem)
    (hc : s.carts.find? (fun c => c.userId == userId) = some cart)
    (hj : joinCartItems s (cartItemsOf s cart.id) = some js)
    (hne : unavailableOf js ≠ []) :
    (createOrder s userId).response = .unavailable (unavailableOf js) ∧
    (createOrder s userId).state = s := by
  rw [createOrder_unavailable_core s userId cart js hc hj hne]
  exact ⟨rfl, rfl⟩

/-- C8 witness: the spec rejection scenario — P requested 2 with stock 5, Q
requested 1 with stock 0 — rejects with exactly one itemized entry (Q,
insufficient stock, 0 available, 1 requested) and leaves the store
unchanged. -/
theorem placeOrder_unavailable_itemized_witness :
    (createOrder demoStorePQ 1).response =
      .unavailable [⟨"Q", .insufficientStock 0 1⟩] ∧
    (createOrder demoStorePQ 1).state = demoStorePQ := by
  have h := placeOrder_unavailable_itemized demoStorePQ 1 ⟨1, 1⟩
    [⟨10, "P", 2, 999, true, 5⟩, ⟨11, "Q", 1, 500, true, 0⟩]
    (by decide) (by decide) (by decide)
  exact ⟨h.1, h.2⟩

/-- C5: cancelOrder succeeds exactly when the order belongs to the user and
is PENDING: it then sets status CANCELLED and adds each order item quantity
back onto its product inventory exactly once (row-wise: every inventory row
gains the summed quantities of this order items for its product, each item
counted once); it reports notFound exactly when no order with this id belongs
to the user, invalidTransition exactly when such an order exists but is not
PENDING, and any failure leaves the store untouched. The identical row-wise
restoration happens when an administrator cancels a CONFIRMED or SHIPPED
order. -/
theorem cancelOrder_spec (s : Store) (userId orderId : ℕ) (hwf : StoreWF s) :
    ((cancelOrder s userId orderId).response = .cancelled ↔
      ∃ o ∈ s.orders, o.id = orderId ∧ o.userId = userId ∧ o.status = .PENDING) ∧
    ((cancelOrder s userId orderId).response = .notFound ↔
      ¬ ∃ o ∈ s.orders, o.id = orderId ∧ o.userId = userId) ∧
    ((cancelOrder s userId orderId).response = .invalidTransition ↔
      ∃ o ∈ s.orders, o.id = orderId ∧ o.userId = userId ∧ o.status ≠ .PENDING) ∧
    ((cancelOrder s userId orderId).response = .cancelled →
      (cancelOrder s userId orderId).state.orders =
        s.orders.map (fun o => if o.id = orderId then { o with status := .CANCELLED } else o) ∧
      (cancelOrder s userId orderId).state.inventories =
        s.inventories.map (fun r =>
          { r with quantity := r.quantity + (incTotal (orderItemsOf s orderId) r.productId : ℤ) })) ∧
    ((cancelOrder s userId orderId).response ≠ .cancelled →
      (cancelOrder s userId orderId).state = s) ∧
    (∀ o ∈ s.orders, o.id = orderId → o.status = .CONFIRMED ∨ o.status = .SHIPPED →
      (updateOrderStatus s orderId .CANCELLED).state.inventories =
        s.inventories.map (fun r =>
          { r with quantity := r.quantity + (incTotal (orderItemsOf s orderId) r.productId : ℤ) })) := by
  have hadmin : ∀ o ∈ s.orders, o.id = orderId →
      o.status = .CONFIRMED ∨ o.status = .SHIPPED →
      (updateOrderStatus s orderId .CANCELLED).state.inventories =
        s.inventories.map (fun r =>
          { r with quantity := r.quantity + (incTotal (orderItemsOf s orderId) r.productId : ℤ) }) := by
    intro o ho hid hcs
    have hfo := find?_order_id s.orders o orderId hwf.ordersUnique ho hid
    rw [updateOrderStatus_found s orderId .CANCELLED o hfo, if_pos ⟨rfl, hcs⟩]
    show (applyIncs (setOrderStatus s orderId .CANCELLED) (orderItemsOf s orderId)).inventories = _
    rw [applyIncs_eq]
    simp [setOrderStatus]
  cases hf : s.orders.find? (fun o2 => o2.id == orderId && o2.userId == userId) with
  | none =>
    have hco := cancelOrder_notFound s userId orderId hf
    have hnone : ¬ ∃ o ∈ s.orders, o.id = orderId ∧ o.userId = userId := by
      rintro ⟨o, ho, hid, huid⟩
      have h1 := find?_order_owner s.orders o orderId userId hwf.ordersUnique ho hid huid
      rw [hf] at h1
      simp at h1
    rw [hco]
    refine ⟨?_, ?_, ?_, ?_, ?_, hadmin⟩
    · constructor
      · intro hx
        simp at hx
      · rintro ⟨o, ho, hid, huid, _⟩
        exact absurd ⟨o, ho, hid, huid⟩ hnone
    · constructor
      · intro _
        exact hnone
      · intro _
        rfl
    · constructor
      · intro hx
        simp at hx
      · rintro ⟨o, ho, hid, huid, _⟩
        exact absurd ⟨o, ho, hid, huid⟩ hnone
    · intro hx
      simp at hx
    · intro _
      rfl
  | some o =>
    have hmem := List.mem_of_find?_eq_some hf
    have hpred := List.find?_some hf
    have hid : o.id = orderId := by
      have := (Bool.and_eq_true _ _).mp hpred
      simpa using this.1
    have huid : o.userId = userId := by
      have := (Bool.and_eq_true _ _).mp hpred
      simpa using this.2
    have huniq : ∀ o2 ∈ s.orders, o2.id = orderId → o2.userId = userId → o2 = o := by
      intro o2 ho2 hid2 huid2
      have h1 := find?_order_owner s.orders o2 orderId userId hwf.ordersUnique ho2 hid2 huid2
      rw [hf] at h1
      injection h1 with h1
      exact h1.symm
    have hco := cancelOrder_found s userId orderId o hf
    by_cases hst : o.status = .PENDING
    · rw [hco, if_neg (not_not.mpr hst)]
      refine ⟨?_, ?_, ?_, ?_, ?_, hadmin⟩
      · constructor
        · intro _
          exact ⟨o, hmem, hid, huid, hst⟩
        · intro _
          rfl
      · constructor
        · intro hx
          simp at hx
        · intro hnx
          exact absurd ⟨o, hmem, hid, huid⟩ hnx
      · constructor
        · intro hx
          simp at hx
        · rintro ⟨o2, ho2, hid2, huid2, hst2⟩
          rw [huniq o2 ho2 hid2 huid2] at hst2
          exact absurd hst hst2
      · intro _
        constructor
        · show (applyIncs (setOrderStatus s orderId .CANCELLED) (orderItemsOf s orderId)).orders = _
          rw [applyIncs_eq]
          simp [setOrderStatus]
        · show (applyIncs (setOrderStatus s orderId .CANCELLED) (orderItemsOf s orderId)).inventories = _
          rw [applyIncs_eq]
          simp [setOrderStatus]
      · intro hx
        exact absurd rfl hx
    · rw [hco, if_pos hst]
      refine ⟨?_, ?_, ?_, ?_, ?_, hadmin⟩
      · constructor
        · intro hx
          simp at hx
        · rintro ⟨o2, ho2, hid2, huid2, hst2⟩
          rw [huniq o2 ho2 hid2 huid2] at hst2
          exact absurd hst2 hst
      · constructor
        · intro hx
          simp at hx
        · intro hnx
          exact absurd ⟨o, hmem, hid, huid⟩ hnx
      · constructor
        · intro _
          exact ⟨o, hmem, hid, huid, hst⟩
        · intro _
          rfl
      · intro hx
        simp at hx
      · intro _
        rfl

/-- A store with a PENDING order (id 7, user 1) of 2 units of product P,
inventory currently 3. -/
def pendingOrderStore : Store :=
  { products := [⟨10, "P", 999, true⟩],
    inventories := [⟨10, 3⟩],
    carts := [⟨1, 1⟩],
    cartItems := [],
    orders := [⟨7, 1, .PENDING, 1998⟩],
    orderItems := [⟨7, 10, 2, 999⟩] }

/-- C5 witness: cancelling the pending order succeeds, sets CANCELLED and
restores the inventory row from 3 to 5. -/
theorem cancelOrder_spec_witness :
    (cancelOrder pendingOrderStore 1 7).response = .cancelled ∧
    (cancelOrder pendingOrderStore 1 7).state.orders = [⟨7, 1, .CANCELLED, 1998⟩] ∧
    (cancelOrder pendingOrderStore 1 7).state.inventories = [⟨10, 5⟩] := by
  have h := cancelOrder_spec pendingOrderStore 1 7 ⟨by decide, by decide, by decide⟩
  have hcanc : (cancelOrder pendingOrderStore 1 7).response = .cancelled :=
    h.1.mpr ⟨⟨7, 1, .PENDING, 1998⟩, by decide, rfl, rfl, rfl⟩
  have hc4 := h.2.2.2.1 hcanc
  refine ⟨hcanc, ?_, ?_⟩
  · rw [hc4.1]
    decide
  · rw [hc4.2]
    decide

/-- C6 amended: admin status updates are unrestricted among the five
statuses: for every existing order id, adminUpdateOrderStatus succeeds and
writes the requested status whatever the current one (backward moves
included); only the customer-facing CANCELLED escape is restricted —
cancelOrder reports success only on an order the caller owns whose status is
PENDING. -/
theorem order_status_transitions (s : Store) (orderId : ℕ) (st : OrderStatus)
    (o : Order) (ho : o ∈ s.orders) (hid : o.id = orderId) (hwf : StoreWF s) :
    (updateOrderStatus s orderId st).response = .updated ∧
    (updateOrderStatus s orderId st).state.orders =
      s.orders.map (fun o2 => if o2.id = orderId then { o2 with status := st } else o2) ∧
    (∀ userId orderId2, (cancelOrder s userId orderId2).response = .cancelled →
      ∃ o2 ∈ s.orders, o2.id = orderId2 ∧ o2.userId = userId ∧ o2.status = .PENDING) := by
  have hfo := find?_order_id s.orders o orderId hwf.ordersUnique ho hid
  have heq := updateOrderStatus_found s orderId st o hfo
  refine ⟨?_, ?_, ?_⟩
  · rw [heq]
    by_cases hcond : st = .CANCELLED ∧ (o.status = .CONFIRMED ∨ o.status = .SHIPPED)
    · rw [if_pos hcond]
    · rw [if_neg hcond]
  · rw [heq]
    by_cases hcond : st = .CANCELLED ∧ (o.status = .CONFIRMED ∨ o.status = .SHIPPED)
    · rw [if_pos hcond]
      show (applyIncs (setOrderStatus s orderId st) (orderItemsOf s orderId)).orders = _
      rw [applyIncs_eq]
      simp [setOrderStatus]
    · rw [if_neg hcond]
      simp [setOrderStatus]
  · intro userId orderId2 hcc
    cases hf2 : s.orders.find? (fun o2 => o2.id == orderId2 && o2.userId == userId) with
    | none =>
      rw [cancelOrder_notFound s userId orderId2 hf2] at hcc
      simp at hcc
    | some o2 =>
      have hmem := List.mem_of_find?_eq_some hf2
      have hpred := List.find?_some hf2
      have hid2 : o2.id = orderId2 := by
        have := (Bool.and_eq_true _ _).mp hpred
        simpa using this.1
      have huid2 : o2.userId = userId := by
        have := (Bool.and_eq_true _ _).mp hpred
        simpa using this.2
      by_cases hst : o2.status = .PENDING
      · exact ⟨o2, hmem, hid2, huid2, hst⟩
      · rw [cancelOrder_found s userId orderId2 o2 hf2, if_pos hst] at hcc
        simp at hcc

/-- C6 witness: the admin moves order 1 from DELIVERED back to CONFIRMED. -/
theorem order_status_transitions_witness :
    (updateOrderStatus deliveredStore 1 .CONFIRMED).response = .updated ∧
    (updateOrderStatus deliveredStore 1 .CONFIRMED).state.orders =
      [⟨1, 1, .CONFIRMED, 1998⟩] := by
  have h := order_status_transitions deliveredStore 1 .CONFIRMED ⟨1, 1, .DELIVERED, 1998⟩
    (by decide) rfl ⟨by decide, by decide, by decide⟩
  refine ⟨h.1, ?_⟩
  rw [h.2.1]
  decide

theorem createOrderCommit_inventories (s : Store) (userId : ℕ) (p : OrderPlan) :
    (createOrderCommit s userId p).2.inventories =
      s.inventories.map (fun r =>
        { r with quantity := r.quantity - (decTotal p.snapshot r.productId : ℤ) }) := by
  unfold createOrderCommit
  simp [applyDecs_eq]

theorem fulfillableB_le (j : JoinedItem) (h : fulfillableB j = true) :
    (j.quantity : ℤ) ≤ j.stock := by
  have h2 := (Bool.and_eq_true _ _).mp h
  simpa using of_decide_eq_true h2.2

theorem decTotal_le (js : List JoinedItem) (p : ℕ) (q : ℤ)
    (hdist : js.Pairwise (fun a b => a.productId ≠ b.productId))
    (hstock : ∀ j ∈ js, j.productId = p → fulfillableB j = true → (j.quantity : ℤ) ≤ q)
    (hq : 0 ≤ q) :
    (decTotal js p : ℤ) ≤ q := by
  induction js with
  | nil => simpa [decTotal] using hq
  | cons j rest ih =>
    rcases List.pairwise_cons.mp hdist with ⟨hhead, htail⟩
    rw [decTotal_cons]
    by_cases hc : (fulfillableB j && j.productId == p) = true
    · have hcc := (Bool.and_eq_true _ _).mp hc
      have hjp : j.productId = p := by simpa using hcc.2
      have h0 : decTotal rest p = 0 := by
        apply decTotal_eq_zero
        intro j2 hj2
        rw [← hjp]
        exact (hhead j2 hj2).symm
      rw [if_pos hc, h0]
      have hj1 := hstock j (List.mem_cons_self _ _) hjp hcc.1
      push_cast
      omega
    · rw [if_neg hc, Nat.zero_add]
      exact ih htail (fun j2 hj2 hp2 hf2 => hstock j2 (List.mem_cons_of_mem _ hj2) hp2 hf2)

/-- C1: on a well-formed store with nonnegative inventory, every
inventory-mutating operation keeps every quantity nonnegative: createOrder
(in a sequential run the transaction decrements only lines whose current
stock covers the request), cancelOrder and adminUpdateOrderStatus (pure
increments), and the admin absolute inventory write (whose payload is
validated to be an integer >= 0). In particular a placeOrder whose joined
cart holds a line requesting more than the current stock is rejected with
the unavailable-items response before any mutation: the store comes back
unchanged. -/
theorem inventory_nonneg_preserved (s : Store) (hwf : StoreWF s) (hnn : InvNonneg s) :
    (∀ userId, InvNonneg (createOrder s userId).state) ∧
    (∀ userId orderId, InvNonneg (cancelOrder s userId orderId).state) ∧
    (∀ orderId st, InvNonneg (updateOrderStatus s orderId st).state) ∧
    (∀ productId q, InvNonneg (updateInventory s productId q).state) ∧
    (∀ userId cart js j,
      s.carts.find? (fun c => c.userId == userId) = some cart →
      joinCartItems s (cartItemsOf s cart.id) = some js →
      j ∈ js → j.stock < (j.quantity : ℤ) →
      (∃ us, (createOrder s userId).response = .unavailable us) ∧
      (createOrder s userId).state = s) := by
  refine ⟨?_, ?_, ?_, ?_, ?_⟩
  · intro userId
    cases hp : createOrderPlan s userId with
    | reject r =>
      rw [createOrder_reject s userId r hp]
      exact hnn
    | proceed p =>
      rw [createOrder_proceed s userId p hp]
      rcases createOrderPlan_proceed_inv s userId p hp with ⟨cart, hc, hcid, hj, hunav⟩
      intro r2 hr2
      have hr2b : r2 ∈ (createOrderCommit s userId p).2.inventories := hr2
      rw [createOrderCommit_inventories] at hr2b
      rcases List.mem_map.mp hr2b with ⟨r, hrmem, rfl⟩
      have h0 : 0 ≤ r.quantity := hnn r hrmem
      have hcdist : (cartItemsOf s cart.id).Pairwise (fun a b => a.productId ≠ b.productId) := by
        have hsub : (cartItemsOf s cart.id).Sublist s.cartItems := List.filter_sublist _
        have hpw := hwf.cartItemsUnique.sublist hsub
        refine List.Pairwise.imp_of_mem ?_ hpw
        intro a b ha hb hab
        rcases hab with hcid2 | hpid
        · exfalso
          apply hcid2
          have ha2 : a.cartId = cart.id := by
            simpa using (List.mem_filter.mp ha).2
          have hb2 : b.cartId = cart.id := by
            simpa using (List.mem_filter.mp hb).2
          rw [ha2, hb2]
        · exact hpid
      have hdist : p.snapshot.Pairwise (fun a b => a.productId ≠ b.productId) := by
        have hmapeq := joinCartItems_pids s _ _ hj
        have h1 : ((cartItemsOf s cart.id).map CartItem.productId).Pairwise (· ≠ ·) :=
          List.pairwise_map.mpr hcdist
        rw [← hmapeq] at h1
        exact List.pairwise_map.mp h1
      have hstock : ∀ j ∈ p.snapshot, j.productId = r.productId →
          fulfillableB j = true → (j.quantity : ℤ) ≤ r.quantity := by
        intro j hjm hjp hful
        rcases joinCartItems_stock s _ _ hj j hjm with ⟨inv, hfind, hstockeq⟩
        have hself : s.inventories.find? (fun r3 => r3.productId == r.productId) = some r :=
          find?_inventory_self s.inventories r hwf.inventoriesUnique hrmem
        rw [hjp, hself] at hfind
        injection hfind with hfind
        have hql := fulfillableB_le j hful
        rw [hstockeq, ← hfind] at hql
        exact hql
      have hle := decTotal_le p.snapshot r.productId r.quantity hdist hstock h0
      show 0 ≤ r.quantity - (decTotal p.snapshot r.productId : ℤ)
      omega
  · intro userId orderId
    cases hf : s.orders.find? (fun o2 => o2.id == orderId && o2.userId == userId) with
    | none =>
      rw [cancelOrder_notFound s userId orderId hf]
      exact hnn
    | some o =>
      rw [cancelOrder_found s userId orderId o hf]
      by_cases hst : o.status ≠ .PENDING
      · rw [if_pos hst]
        exact hnn
      · rw [if_neg hst]
        intro r2 hr2
        have hr2b : r2 ∈ (applyIncs (setOrderStatus s orderId .CANCELLED)
            (orderItemsOf s orderId)).inventories := hr2
        rw [applyIncs_eq] at hr2b
        simp only [setOrderStatus] at hr2b
        rcases List.mem_map.mp hr2b with ⟨r, hrmem, rfl⟩
        have h0 : 0 ≤ r.quantity := hnn r hrmem
        have h1 : (0 : ℤ) ≤ (incTotal (orderItemsOf s orderId) r.productId : ℤ) :=
          Int.natCast_nonneg _
        show 0 ≤ r.quantity + (incTotal (orderItemsOf s orderId) r.productId : ℤ)
        omega
  · intro orderId st
    cases hf : s.orders.find? (fun o2 => o2.id == orderId) with
    | none =>
      rw [updateOrderStatus_notFound s orderId st hf]
      exact hnn
    | some o =>
      rw [updateOrderStatus_found s orderId st o hf]
      by_cases hcond : st = .CANCELLED ∧ (o.status = .CONFIRMED ∨ o.status = .SHIPPED)
      · rw [if_pos hcond]
        intro r2 hr2
        have hr2b : r2 ∈ (applyIncs (setOrderStatus s orderId st)
            (orderItemsOf s orderId)).inventories := hr2
        rw [applyIncs_eq] at hr2b
        simp only [setOrderStatus] at hr2b
        rcases List.mem_map.mp hr2b with ⟨r, hrmem, rfl⟩
        have h0 : 0 ≤ r.quantity := hnn r hrmem
        have h1 : (0 : ℤ) ≤ (incTotal (orderItemsOf s orderId) r.productId : ℤ) :=
          Int.natCast_nonneg _
        show 0 ≤ r.quantity + (incTotal (orderItemsOf s orderId) r.productId : ℤ)
        omega
      · rw [if_neg hcond]
        intro r2 hr2
        have hr2b : r2 ∈ (setOrderStatus s orderId st).inventories := hr2
        simp only [setOrderStatus] at hr2b
        exact hnn r2 hr2b
  · intro productId q
    cases hf : s.products.find? (fun p2 => p2.id == productId) with
    | none =>
      rw [updateInventory_notFound s productId q hf]
      exact hnn
    | some p =>
      rw [updateInventory_found s productId q p hf]
      intro r2 hr2
      have hr2b : r2 ∈ (setInvAbs s productId q).inventories := hr2
      simp only [setInvAbs] at hr2b
      rcases List.mem_map.mp hr2b with ⟨r, hrmem, rfl⟩
      by_cases hp2 : r.productId = productId
      · rw [if_pos hp2]
        exact Int.natCast_nonneg _
      · rw [if_neg hp2]
        exact hnn r hrmem
  · intro userId cart js j hc hj hjm hlt
    have hne : unavailableOf js ≠ [] := by
      intro h0
      have hall := List.filterMap_eq_nil_iff.mp h0 j hjm
      by_cases ha : j.isActive = false
      · rw [if_pos ha] at hall
        simp at hall
      · rw [if_neg ha, if_pos hlt] at hall
        simp at hall
    rw [createOrder_unavailable_core s userId cart js hc hj hne]
    exact ⟨⟨unavailableOf js, rfl⟩, rfl⟩

/-- C1 witness: the demo store is well-formed with nonnegative stock; after
the successful placeOrder of 2 units the inventory is still nonnegative, and
a cart requesting 3 units of the zero-stock product Q is rejected with the
store unchanged. -/
theorem inventory_nonneg_preserved_witness :
    StoreWF demoStorePQ ∧ InvNonneg demoStorePQ ∧
    InvNonneg (createOrder demoStorePQ 1).state ∧
    ((∃ us, (createOrder demoStorePQ 1).response = .unavailable us) ∧
      (createOrder demoStorePQ 1).state = demoStorePQ) := by
  have hwf : StoreWF demoStorePQ := ⟨by decide, by decide, by decide⟩
  have hnn : InvNonneg demoStorePQ := by
    intro r hr
    fin_cases hr <;> decide
  have h := inventory_nonneg_preserved demoStorePQ hwf hnn
  refine ⟨hwf, hnn, h.1 1, ?_⟩
  exact h.2.2.2.2 1 ⟨1, 1⟩ [⟨10, "P", 2, 999, true, 5⟩, ⟨11, "Q", 1, 500, true, 0⟩]
    ⟨11, "Q", 1, 500, true, 0⟩ (by decide) (by decide) (by decide) (by decide)
